import Mathlib

/-!
# Administrative HTTP transport (`transports/http_admin.go`)

A shallow embedding of the admin operations of `TransportHTTP`.  Every operation
builds a `map[string]interface{}`, hands it to `json.Marshal`, and performs one
exchange through `doHTTPRequest`.  The two library/sibling routines are oracles
of an environment; every invocation of them is recorded, together with what it
returned, so that the order and number of calls can be stated.
-/

namespace Transports

/-! ## Data model -/

/-- A Go `error` value. -/
structure Error where
  msg : String
deriving DecidableEq, Repr

/-- A `[]byte` produced by `json.Marshal`. -/
abbrev Bytes := String

/-- The pointee of a `*bip32.ExtendedKey`. -/
abbrev Key := String

/-- A `context.Context`, uninterpreted. -/
abbrev Context := Nat

/-- The externally defined record types this file transports. -/
inductive ModelKind
  | xpub | accessKey | blockHeader | destination | paymailAddress | transaction | utxo
  | adminStats
deriving DecidableEq, Repr

/-- An externally defined record (`bux.Xpub`, `bux.Transaction`, ...): its `ID` and the
remaining, uninterpreted content. -/
structure Model (k : ModelKind) where
  ID : String
  content : String
deriving DecidableEq, Repr

/-- The zero value of a record struct. -/
def Model.zero (k : ModelKind) : Model k := ⟨"", ""⟩

/-- The pointee of `*bux.Metadata` (a `map[string]interface{}`), values uninterpreted. -/
abbrev Metadata := List (String × String)

/-- A `map[string]interface{}` of search conditions, values uninterpreted. -/
abbrev Conditions := List (String × String)

/-- The pointee of `*datastore.QueryParams`. -/
structure QueryParams where
  Page : Int
  PageSize : Int
  OrderByField : String
  SortDirection : String
deriving DecidableEq, Repr

/-- The `interface{}` values this file stores in a request map.  Pointers and maps may be
nil (`none`). -/
inductive Value
  | str (s : String)
  | conditions (c : Option Conditions)
  | metadata (m : Option Metadata)
  | queryParams (q : Option QueryParams)
deriving DecidableEq, Repr

/-- A `map[string]interface{}`: at most one entry per key. -/
abbrev GoMap := List (String × Value)

/-- Assignment `m[k] = v`: an earlier entry under `k` is replaced. -/
def GoMap.set (m : GoMap) (k : String) (v : Value) : GoMap :=
  m.filter (fun e => e.1 != k) ++ [(k, v)]

/-- A map composite literal `map[string]interface{}{k1: v1, ..., kn: vn}`. -/
def mapLit (entries : List (String × Value)) : GoMap :=
  entries.foldl (fun m e => m.set e.1 e.2) []

/-- The dynamic type of the pointer handed to `doHTTPRequest` as `responseJSON`. -/
inductive DestKind
  | xpub            -- *bux.Xpub
  | bool            -- *bool
  | adminStats      -- **bux.AdminStats
  | models (k : ModelKind)  -- the slice variable reached through `&models`
  | int64           -- *int64
  | paymailAddress  -- **bux.PaymailAddress
  | transaction     -- *bux.Transaction
deriving DecidableEq, Repr

/-- The content of the variable a `responseJSON` pointer of the given kind points to. -/
@[reducible] def DestKind.Ty : DestKind → Type
  | .xpub => Model .xpub
  | .bool => Bool
  | .adminStats => Option (Model .adminStats)
  | .models k => Option (List (Option (Model k)))
  | .int64 => Int
  | .paymailAddress => Option (Model .paymailAddress)
  | .transaction => Model .transaction

/-- A destination variable together with its content. -/
abbrev Cell := Sigma DestKind.Ty

/-- The receiver type `TransportHTTP`, declared outside this file: the fields the admin
operations read. -/
structure TransportHTTP where
  adminXPriv : Option Key
  xPriv : Option Key
  debug : Bool
  signRequest : Bool
deriving DecidableEq, Repr

/-- The arguments of one `doHTTPRequest` call, apart from the destination. -/
structure Call where
  ctx : Context
  method : String
  path : String
  rawJSON : Option Bytes
  xPriv : Option Key
  sign : Bool
deriving DecidableEq, Repr

/-- What an operation did, in order: a `json.Marshal` call with its result, a
`doHTTPRequest` call with the final content of its destination and the error it
returned, a `log.Printf` call with its format string. -/
inductive Event
  | marshal (v : GoMap) (res : Except Error Bytes)
  | request (c : Call) (dest : Cell) (err : Option Error)
  | log (format : String)

/-- The history of events before an operation starts. -/
abbrev World := List Event

/-- Everything the file uses and does not define: the field-name constants and
`ErrAdminKey` (package constants), `processMetadata` (package helper), `json.Marshal`
and the request helper `doHTTPRequest`.  The helper sees the history, the transport,
the call and the current content of the destination; it answers with the new content
of the destination and the error it returns. -/
structure Env where
  FieldMetadata : String
  FieldXpubKey : String
  FieldConditions : String
  FieldQueryParams : String
  FieldAddress : String
  FieldXpubID : String
  FieldPublicName : String
  FieldAvatar : String
  FieldHex : String
  ErrAdminKey : Error
  processMetadata : Option Metadata → Option Metadata
  marshal : GoMap → Except Error Bytes
  httpExchange : World → TransportHTTP → Call → (d : DestKind) → d.Ty → d.Ty × Option Error

/-- The constant `http.MethodGet`. -/
def MethodGet : String := "GET"

/-- The constant `http.MethodPost`. -/
def MethodPost : String := "POST"

/-! ## The two external calls, recorded -/

/-- A call `json.Marshal(v)`. -/
def jsonMarshal (env : Env) (v : GoMap) : Except Error Bytes × List Event :=
  (env.marshal v, [Event.marshal v (env.marshal v)])

/-- A call `h.doHTTPRequest(ctx, method, path, rawJSON, xPriv, sign, responseJSON)` made
after history `w`; `responseJSON` points to a variable of kind `d` holding `v`. -/
def TransportHTTP.doHTTPRequest (env : Env) (h : TransportHTTP) (w : World) (ctx : Context)
    (method path : String) (rawJSON : Option Bytes) (xPriv : Option Key) (sign : Bool)
    (d : DestKind) (v : d.Ty) : (d.Ty × Option Error) × List Event :=
  let c : Call := ⟨ctx, method, path, rawJSON, xPriv, sign⟩
  let r := env.httpExchange w h c d v
  (r, [Event.request c ⟨d, r.1⟩ r.2])

/-- The statement `if h.debug { log.Printf(format, ...) }`. -/
def TransportHTTP.debugLog (h : TransportHTTP) (format : String) : List Event :=
  if h.debug then [Event.log format] else []

/-! ## Operations -/

/-- NewXpub will register an xPub. -/
def TransportHTTP.NewXpub (env : Env) (h : TransportHTTP) (w : World) (ctx : Context)
    (rawXPub : String) (metadata : Option Metadata) : Option Error × List Event :=
  if h.adminXPriv = none then
    (some env.ErrAdminKey, [])
  else
    let (r, ev1) := jsonMarshal env (mapLit [
      (env.FieldMetadata, .metadata (env.processMetadata metadata)),
      (env.FieldXpubKey, .str rawXPub)])
    match r with
    | .error err => (some err, ev1)
    | .ok jsonStr =>
      let (res, ev2) := h.doHTTPRequest env (w ++ ev1) ctx MethodPost "/xpub" (some jsonStr)
        h.adminXPriv true .xpub (Model.zero .xpub)
      (res.2, ev1 ++ ev2)

/-- RegisterXpub alias for NewXpub. -/
def TransportHTTP.RegisterXpub (env : Env) (h : TransportHTTP) (w : World) (ctx : Context)
    (rawXPub : String) (metadata : Option Metadata) : Option Error × List Event :=
  h.NewXpub env w ctx rawXPub metadata

/-- AdminGetStatus get whether admin key is valid. -/
def TransportHTTP.AdminGetStatus (env : Env) (h : TransportHTTP) (w : World) (ctx : Context) :
    (Bool × Option Error) × List Event :=
  let (res, ev1) := h.doHTTPRequest env w ctx MethodGet "/admin/status" none h.xPriv true
    .bool false
  match res.2 with
  | some err => ((false, some err), ev1)
  | none => ((res.1, none), ev1 ++ h.debugLog "admin status: %v\n")

/-- AdminGetStats get admin stats. -/
def TransportHTTP.AdminGetStats (env : Env) (h : TransportHTTP) (w : World) (ctx : Context) :
    (Option (Model .adminStats) × Option Error) × List Event :=
  let (res, ev1) := h.doHTTPRequest env w ctx MethodGet "/admin/stats" none h.xPriv true
    .adminStats none
  match res.2 with
  | some err => ((none, some err), ev1)
  | none => ((res.1, none), ev1 ++ h.debugLog "admin stats: %v\n")

/-- The unexported `adminGetModels`: `models` is the caller's slice variable, of element
kind `k` and current content `models`; the new content is returned with the error. -/
def TransportHTTP.adminGetModels (env : Env) (h : TransportHTTP) (w : World) (ctx : Context)
    (conditions : Option Conditions) (metadata : Option Metadata)
    (queryParams : Option QueryParams) (path : String) (k : ModelKind)
    (models : Option (List (Option (Model k)))) :
    (Option (List (Option (Model k))) × Option Error) × List Event :=
  let (r, ev1) := jsonMarshal env (mapLit [
    (env.FieldConditions, .conditions conditions),
    (env.FieldMetadata, .metadata (env.processMetadata metadata)),
    (env.FieldQueryParams, .queryParams queryParams)])
  match r with
  | .error err => ((models, some err), ev1)
  | .ok jsonStr =>
    let (res, ev2) := h.doHTTPRequest env (w ++ ev1) ctx MethodGet path (some jsonStr)
      h.xPriv true (.models k) models
    match res.2 with
    | some err => ((res.1, some err), ev1 ++ ev2)
    | none => ((res.1, none), ev1 ++ ev2 ++ h.debugLog (path ++ ": %v\n"))

/-- The unexported `adminCount`. -/
def TransportHTTP.adminCount (env : Env) (h : TransportHTTP) (w : World) (ctx : Context)
    (conditions : Option Conditions) (metadata : Option Metadata) (path : String) :
    (Int × Option Error) × List Event :=
  let (r, ev1) := jsonMarshal env (mapLit [
    (env.FieldConditions, .conditions conditions),
    (env.FieldMetadata, .metadata (env.processMetadata metadata))])
  match r with
  | .error err => ((0, some err), ev1)
  | .ok jsonStr =>
    let (res, ev2) := h.doHTTPRequest env (w ++ ev1) ctx MethodGet path (some jsonStr)
      h.xPriv true .int64 (0 : Int)
    match res.2 with
    | some err => ((0, some err), ev1 ++ ev2)
    | none => ((res.1, none), ev1 ++ ev2 ++ h.debugLog (path ++ ": %v\n"))

/-- AdminGetAccessKeys get all access keys filtered by conditions. -/
def TransportHTTP.AdminGetAccessKeys (env : Env) (h : TransportHTTP) (w : World) (ctx : Context)
    (conditions : Option Conditions) (metadata : Option Metadata)
    (queryParams : Option QueryParams) :
    (Option (List (Option (Model .accessKey))) × Option Error) × List Event :=
  let (res, ev1) := h.adminGetModels env w ctx conditions metadata queryParams
    "/admin/access-keys/search" .accessKey none
  match res.2 with
  | some err => ((none, some err), ev1)
  | none => ((res.1, none), ev1)

/-- AdminGetAccessKeysCount get a count of all the access keys filtered by conditions. -/
def TransportHTTP.AdminGetAccessKeysCount (env : Env) (h : TransportHTTP) (w : World) (ctx : Context)
    (conditions : Option Conditions) (metadata : Option Metadata) :
    (Int × Option Error) × List Event :=
  h.adminCount env w ctx conditions metadata "/admin/access-keys/count"

/-- AdminGetBlockHeaders get all block headers filtered by conditions. -/
def TransportHTTP.AdminGetBlockHeaders (env : Env) (h : TransportHTTP) (w : World) (ctx : Context)
    (conditions : Option Conditions) (metadata : Option Metadata)
    (queryParams : Option QueryParams) :
    (Option (List (Option (Model .blockHeader))) × Option Error) × List Event :=
  let (res, ev1) := h.adminGetModels env w ctx conditions metadata queryParams
    "/admin/block-headers/search" .blockHeader none
  match res.2 with
  | some err => ((none, some err), ev1)
  | none => ((res.1, none), ev1)

/-- AdminGetBlockHeadersCount get a count of all the block headers filtered by conditions. -/
def TransportHTTP.AdminGetBlockHeadersCount (env : Env) (h : TransportHTTP) (w : World) (ctx : Context)
    (conditions : Option Conditions) (metadata : Option Metadata) :
    (Int × Option Error) × List Event :=
  h.adminCount env w ctx conditions metadata "/admin/block-headers/count"

/-- AdminGetDestinations get all block destinations filtered by conditions. -/
def TransportHTTP.AdminGetDestinations (env : Env) (h : TransportHTTP) (w : World) (ctx : Context)
    (conditions : Option Conditions) (metadata : Option Metadata)
    (queryParams : Option QueryParams) :
    (Option (List (Option (Model .destination))) × Option Error) × List Event :=
  let (res, ev1) := h.adminGetModels env w ctx conditions metadata queryParams
    "/admin/destinations/search" .destination none
  match res.2 with
  | some err => ((none, some err), ev1)
  | none => ((res.1, none), ev1)

/-- AdminGetDestinationsCount get a count of all the destinations filtered by conditions. -/
def TransportHTTP.AdminGetDestinationsCount (env : Env) (h : TransportHTTP) (w : World) (ctx : Context)
    (conditions : Option Conditions) (metadata : Option Metadata) :
    (Int × Option Error) × List Event :=
  h.adminCount env w ctx conditions metadata "/admin/destinations/count"

/-- AdminGetPaymail get a paymail by address. -/
def TransportHTTP.AdminGetPaymail (env : Env) (h : TransportHTTP) (w : World) (ctx : Context)
    (address : String) :
    (Option (Model .paymailAddress) × Option Error) × List Event :=
  let (r, ev1) := jsonMarshal env (mapLit [
    (env.FieldAddress, .str address)])
  match r with
  | .error err => ((none, some err), ev1)
  | .ok jsonStr =>
    let (res, ev2) := h.doHTTPRequest env (w ++ ev1) ctx MethodGet "/admin/paymail/get"
      (some jsonStr) h.xPriv true .paymailAddress none
    match res.2 with
    | some err => ((none, some err), ev1 ++ ev2)
    | none => ((res.1, none), ev1 ++ ev2 ++ h.debugLog "admin get paymail: %v\n")

/-- AdminGetPaymails get all block paymails filtered by conditions. -/
def TransportHTTP.AdminGetPaymails (env : Env) (h : TransportHTTP) (w : World) (ctx : Context)
    (conditions : Option Conditions) (metadata : Option Metadata)
    (queryParams : Option QueryParams) :
    (Option (List (Option (Model .paymailAddress))) × Option Error) × List Event :=
  let (res, ev1) := h.adminGetModels env w ctx conditions metadata queryParams
    "/admin/paymails/search" .paymailAddress none
  match res.2 with
  | some err => ((none, some err), ev1)
  | none => ((res.1, none), ev1)

/-- AdminGetPaymailsCount get a count of all the paymails filtered by conditions. -/
def TransportHTTP.AdminGetPaymailsCount (env : Env) (h : TransportHTTP) (w : World) (ctx : Context)
    (conditions : Option Conditions) (metadata : Option Metadata) :
    (Int × Option Error) × List Event :=
  h.adminCount env w ctx conditions metadata "/admin/paymails/count"

/-- AdminCreatePaymail create a new paymail for a xpub. -/
def TransportHTTP.AdminCreatePaymail (env : Env) (h : TransportHTTP) (w : World) (ctx : Context)
    (xPubID address publicName avatar : String) :
    (Option (Model .paymailAddress) × Option Error) × List Event :=
  let (r, ev1) := jsonMarshal env (mapLit [
    (env.FieldXpubID, .str xPubID),
    (env.FieldAddress, .str address),
    (env.FieldPublicName, .str publicName),
    (env.FieldAvatar, .str avatar)])
  match r with
  | .error err => ((none, some err), ev1)
  | .ok jsonStr =>
    let (res, ev2) := h.doHTTPRequest env (w ++ ev1) ctx MethodPost "/admin/paymail/create"
      (some jsonStr) h.xPriv true .paymailAddress none
    match res.2 with
    | some err => ((none, some err), ev1 ++ ev2)
    | none => ((res.1, none), ev1 ++ ev2 ++ h.debugLog "admin create paymail: %v\n")

/-- AdminDeletePaymail delete a paymail address from the database. -/
def TransportHTTP.AdminDeletePaymail (env : Env) (h : TransportHTTP) (w : World) (ctx : Context)
    (address : String) :
    (Option (Model .paymailAddress) × Option Error) × List Event :=
  let (r, ev1) := jsonMarshal env (mapLit [
    (env.FieldAddress, .str address)])
  match r with
  | .error err => ((none, some err), ev1)
  | .ok jsonStr =>
    let (res, ev2) := h.doHTTPRequest env (w ++ ev1) ctx MethodPost "/admin/paymail/delete"
      (some jsonStr) h.xPriv true .paymailAddress none
    match res.2 with
    | some err => ((none, some err), ev1 ++ ev2)
    | none => ((res.1, none), ev1 ++ ev2 ++ h.debugLog "admin delete paymail: %v\n")

/-- AdminGetTransactions get all block transactions filtered by conditions. -/
def TransportHTTP.AdminGetTransactions (env : Env) (h : TransportHTTP) (w : World) (ctx : Context)
    (conditions : Option Conditions) (metadata : Option Metadata)
    (queryParams : Option QueryParams) :
    (Option (List (Option (Model .transaction))) × Option Error) × List Event :=
  let (res, ev1) := h.adminGetModels env w ctx conditions metadata queryParams
    "/admin/transactions/search" .transaction none
  match res.2 with
  | some err => ((none, some err), ev1)
  | none => ((res.1, none), ev1)

/-- AdminGetTransactionsCount get a count of all the transactions filtered by conditions. -/
def TransportHTTP.AdminGetTransactionsCount (env : Env) (h : TransportHTTP) (w : World) (ctx : Context)
    (conditions : Option Conditions) (metadata : Option Metadata) :
    (Int × Option Error) × List Event :=
  h.adminCount env w ctx conditions metadata "/admin/transactions/count"

/-- AdminGetUtxos get all block utxos filtered by conditions. -/
def TransportHTTP.AdminGetUtxos (env : Env) (h : TransportHTTP) (w : World) (ctx : Context)
    (conditions : Option Conditions) (metadata : Option Metadata)
    (queryParams : Option QueryParams) :
    (Option (List (Option (Model .utxo))) × Option Error) × List Event :=
  let (res, ev1) := h.adminGetModels env w ctx conditions metadata queryParams
    "/admin/utxos/search" .utxo none
  match res.2 with
  | some err => ((none, some err), ev1)
  | none => ((res.1, none), ev1)

/-- AdminGetUtxosCount get a count of all the utxos filtered by conditions. -/
def TransportHTTP.AdminGetUtxosCount (env : Env) (h : TransportHTTP) (w : World) (ctx : Context)
    (conditions : Option Conditions) (metadata : Option Metadata) :
    (Int × Option Error) × List Event :=
  h.adminCount env w ctx conditions metadata "/admin/utxos/count"

/-- AdminGetXPubs get all block xpubs filtered by conditions. -/
def TransportHTTP.AdminGetXPubs (env : Env) (h : TransportHTTP) (w : World) (ctx : Context)
    (conditions : Option Conditions) (metadata : Option Metadata)
    (queryParams : Option QueryParams) :
    (Option (List (Option (Model .xpub))) × Option Error) × List Event :=
  let (res, ev1) := h.adminGetModels env w ctx conditions metadata queryParams
    "/admin/xpubs/search" .xpub none
  match res.2 with
  | some err => ((none, some err), ev1)
  | none => ((res.1, none), ev1)

/-- AdminGetXPubsCount get a count of all the xpubs filtered by conditions. -/
def TransportHTTP.AdminGetXPubsCount (env : Env) (h : TransportHTTP) (w : World) (ctx : Context)
    (conditions : Option Conditions) (metadata : Option Metadata) :
    (Int × Option Error) × List Event :=
  h.adminCount env w ctx conditions metadata "/admin/xpubs/count"

/-- AdminRecordTransaction will record a transaction as an admin.  The result is a pointer
to the local `transaction`, nil on failure. -/
def TransportHTTP.AdminRecordTransaction (env : Env) (h : TransportHTTP) (w : World)
    (ctx : Context) (hex : String) :
    (Option (Model .transaction) × Option Error) × List Event :=
  let (r, ev1) := jsonMarshal env (mapLit [
    (env.FieldHex, .str hex)])
  match r with
  | .error err => ((none, some err), ev1)
  | .ok jsonStr =>
    let (res, ev2) := h.doHTTPRequest env (w ++ ev1) ctx MethodPost
      "/admin/transactions/record" (some jsonStr) h.xPriv h.signRequest .transaction
      (Model.zero .transaction)
    match res.2 with
    | some err => ((none, some err), ev1 ++ ev2)
    | none => ((some res.1, none), ev1 ++ ev2 ++ h.debugLog "transaction: %s\n")

/-! ## The exported operations as one family -/

/-- The names of the exported operations of the file. -/
inductive OpName
  | NewXpub | RegisterXpub | AdminGetStatus
  | AdminGetStats | AdminGetAccessKeys | AdminGetAccessKeysCount
  | AdminGetBlockHeaders | AdminGetBlockHeadersCount | AdminGetDestinations
  | AdminGetDestinationsCount | AdminGetPaymail | AdminGetPaymails
  | AdminGetPaymailsCount | AdminCreatePaymail | AdminDeletePaymail
  | AdminGetTransactions | AdminGetTransactionsCount | AdminGetUtxos
  | AdminGetUtxosCount | AdminGetXPubs | AdminGetXPubsCount
  | AdminRecordTransaction
deriving DecidableEq, Repr

/-- An invocation of an exported operation: its name and its arguments after `ctx`. -/
inductive Op
  | NewXpub (rawXPub : String) (metadata : Option Metadata)
  | RegisterXpub (rawXPub : String) (metadata : Option Metadata)
  | AdminGetStatus
  | AdminGetStats
  | AdminGetAccessKeys (conditions : Option Conditions) (metadata : Option Metadata)
      (queryParams : Option QueryParams)
  | AdminGetAccessKeysCount (conditions : Option Conditions) (metadata : Option Metadata)
  | AdminGetBlockHeaders (conditions : Option Conditions) (metadata : Option Metadata)
      (queryParams : Option QueryParams)
  | AdminGetBlockHeadersCount (conditions : Option Conditions) (metadata : Option Metadata)
  | AdminGetDestinations (conditions : Option Conditions) (metadata : Option Metadata)
      (queryParams : Option QueryParams)
  | AdminGetDestinationsCount (conditions : Option Conditions) (metadata : Option Metadata)
  | AdminGetPaymail (address : String)
  | AdminGetPaymails (conditions : Option Conditions) (metadata : Option Metadata)
      (queryParams : Option QueryParams)
  | AdminGetPaymailsCount (conditions : Option Conditions) (metadata : Option Metadata)
  | AdminCreatePaymail (xPubID address publicName avatar : String)
  | AdminDeletePaymail (address : String)
  | AdminGetTransactions (conditions : Option Conditions) (metadata : Option Metadata)
      (queryParams : Option QueryParams)
  | AdminGetTransactionsCount (conditions : Option Conditions) (metadata : Option Metadata)
  | AdminGetUtxos (conditions : Option Conditions) (metadata : Option Metadata)
      (queryParams : Option QueryParams)
  | AdminGetUtxosCount (conditions : Option Conditions) (metadata : Option Metadata)
  | AdminGetXPubs (conditions : Option Conditions) (metadata : Option Metadata)
      (queryParams : Option QueryParams)
  | AdminGetXPubsCount (conditions : Option Conditions) (metadata : Option Metadata)
  | AdminRecordTransaction (hex : String)

/-- The name of the operation invoked. -/
def Op.name : Op → OpName
  | .NewXpub _ _ => .NewXpub
  | .RegisterXpub _ _ => .RegisterXpub
  | .AdminGetStatus => .AdminGetStatus
  | .AdminGetStats => .AdminGetStats
  | .AdminGetAccessKeys _ _ _ => .AdminGetAccessKeys
  | .AdminGetAccessKeysCount _ _ => .AdminGetAccessKeysCount
  | .AdminGetBlockHeaders _ _ _ => .AdminGetBlockHeaders
  | .AdminGetBlockHeadersCount _ _ => .AdminGetBlockHeadersCount
  | .AdminGetDestinations _ _ _ => .AdminGetDestinations
  | .AdminGetDestinationsCount _ _ => .AdminGetDestinationsCount
  | .AdminGetPaymail _ => .AdminGetPaymail
  | .AdminGetPaymails _ _ _ => .AdminGetPaymails
  | .AdminGetPaymailsCount _ _ => .AdminGetPaymailsCount
  | .AdminCreatePaymail _ _ _ _ => .AdminCreatePaymail
  | .AdminDeletePaymail _ => .AdminDeletePaymail
  | .AdminGetTransactions _ _ _ => .AdminGetTransactions
  | .AdminGetTransactionsCount _ _ => .AdminGetTransactionsCount
  | .AdminGetUtxos _ _ _ => .AdminGetUtxos
  | .AdminGetUtxosCount _ _ => .AdminGetUtxosCount
  | .AdminGetXPubs _ _ _ => .AdminGetXPubs
  | .AdminGetXPubsCount _ _ => .AdminGetXPubsCount
  | .AdminRecordTransaction _ => .AdminRecordTransaction

/-- The value an operation returns beside its error. -/
inductive RetVal
  | unit                                   -- the operation returns an error only
  | status (b : Bool)
  | stats (p : Option (Model .adminStats))
  | models (k : ModelKind) (l : Option (List (Option (Model k))))
  | count (n : Int)
  | paymail (p : Option (Model .paymailAddress))
  | transaction (p : Option (Model .transaction))

/-- Run an invocation after history `w`: the returned value and error, and the events of
this invocation. -/
def Op.run (env : Env) (h : TransportHTTP) (w : World) (ctx : Context) :
    Op → (RetVal × Option Error) × List Event
  | .NewXpub rawXPub metadata =>
    let r := h.NewXpub env w ctx rawXPub metadata
    ((.unit, r.1), r.2)
  | .RegisterXpub rawXPub metadata =>
    let r := h.RegisterXpub env w ctx rawXPub metadata
    ((.unit, r.1), r.2)
  | .AdminGetStatus =>
    let r := h.AdminGetStatus env w ctx
    ((.status r.1.1, r.1.2), r.2)
  | .AdminGetStats =>
    let r := h.AdminGetStats env w ctx
    ((.stats r.1.1, r.1.2), r.2)
  | .AdminGetAccessKeys conditions metadata queryParams =>
    let r := h.AdminGetAccessKeys env w ctx conditions metadata queryParams
    ((.models .accessKey r.1.1, r.1.2), r.2)
  | .AdminGetAccessKeysCount conditions metadata =>
    let r := h.AdminGetAccessKeysCount env w ctx conditions metadata
    ((.count r.1.1, r.1.2), r.2)
  | .AdminGetBlockHeaders conditions metadata queryParams =>
    let r := h.AdminGetBlockHeaders env w ctx conditions metadata queryParams
    ((.models .blockHeader r.1.1, r.1.2), r.2)
  | .AdminGetBlockHeadersCount conditions metadata =>
    let r := h.AdminGetBlockHeadersCount env w ctx conditions metadata
    ((.count r.1.1, r.1.2), r.2)
  | .AdminGetDestinations conditions metadata queryParams =>
    let r := h.AdminGetDestinations env w ctx conditions metadata queryParams
    ((.models .destination r.1.1, r.1.2), r.2)
  | .AdminGetDestinationsCount conditions metadata =>
    let r := h.AdminGetDestinationsCount env w ctx conditions metadata
    ((.count r.1.1, r.1.2), r.2)
  | .AdminGetPaymail address =>
    let r := h.AdminGetPaymail env w ctx address
    ((.paymail r.1.1, r.1.2), r.2)
  | .AdminGetPaymails conditions metadata queryParams =>
    let r := h.AdminGetPaymails env w ctx conditions metadata queryParams
    ((.models .paymailAddress r.1.1, r.1.2), r.2)
  | .AdminGetPaymailsCount conditions metadata =>
    let r := h.AdminGetPaymailsCount env w ctx conditions metadata
    ((.count r.1.1, r.1.2), r.2)
  | .AdminCreatePaymail xPubID address publicName avatar =>
    let r := h.AdminCreatePaymail env w ctx xPubID address publicName avatar
    ((.paymail r.1.1, r.1.2), r.2)
  | .AdminDeletePaymail address =>
    let r := h.AdminDeletePaymail env w ctx address
    ((.paymail r.1.1, r.1.2), r.2)
  | .AdminGetTransactions conditions metadata queryParams =>
    let r := h.AdminGetTransactions env w ctx conditions metadata queryParams
    ((.models .transaction r.1.1, r.1.2), r.2)
  | .AdminGetTransactionsCount conditions metadata =>
    let r := h.AdminGetTransactionsCount env w ctx conditions metadata
    ((.count r.1.1, r.1.2), r.2)
  | .AdminGetUtxos conditions metadata queryParams =>
    let r := h.AdminGetUtxos env w ctx conditions metadata queryParams
    ((.models .utxo r.1.1, r.1.2), r.2)
  | .AdminGetUtxosCount conditions metadata =>
    let r := h.AdminGetUtxosCount env w ctx conditions metadata
    ((.count r.1.1, r.1.2), r.2)
  | .AdminGetXPubs conditions metadata queryParams =>
    let r := h.AdminGetXPubs env w ctx conditions metadata queryParams
    ((.models .xpub r.1.1, r.1.2), r.2)
  | .AdminGetXPubsCount conditions metadata =>
    let r := h.AdminGetXPubsCount env w ctx conditions metadata
    ((.count r.1.1, r.1.2), r.2)
  | .AdminRecordTransaction hex =>
    let r := h.AdminRecordTransaction env w ctx hex
    ((.transaction r.1.1, r.1.2), r.2)

/-- The `doHTTPRequest` calls among some events, in order. -/
def calls (evs : List Event) : List Call :=
  evs.filterMap fun e => match e with
    | .request c _ _ => some c
    | _ => none

/-! ## The documented behaviour, as tables over the operations -/

/-- The (method, path) pair documented for each operation. -/
def specEndpoint : OpName → String × String
  | .NewXpub => ("POST", "/xpub")
  | .RegisterXpub => ("POST", "/xpub")
  | .AdminGetStatus => ("GET", "/admin/status")
  | .AdminGetStats => ("GET", "/admin/stats")
  | .AdminGetAccessKeys => ("GET", "/admin/access-keys/search")
  | .AdminGetAccessKeysCount => ("GET", "/admin/access-keys/count")
  | .AdminGetBlockHeaders => ("GET", "/admin/block-headers/search")
  | .AdminGetBlockHeadersCount => ("GET", "/admin/block-headers/count")
  | .AdminGetDestinations => ("GET", "/admin/destinations/search")
  | .AdminGetDestinationsCount => ("GET", "/admin/destinations/count")
  | .AdminGetPaymail => ("GET", "/admin/paymail/get")
  | .AdminGetPaymails => ("GET", "/admin/paymails/search")
  | .AdminGetPaymailsCount => ("GET", "/admin/paymails/count")
  | .AdminCreatePaymail => ("POST", "/admin/paymail/create")
  | .AdminDeletePaymail => ("POST", "/admin/paymail/delete")
  | .AdminGetTransactions => ("GET", "/admin/transactions/search")
  | .AdminGetTransactionsCount => ("GET", "/admin/transactions/count")
  | .AdminGetUtxos => ("GET", "/admin/utxos/search")
  | .AdminGetUtxosCount => ("GET", "/admin/utxos/count")
  | .AdminGetXPubs => ("GET", "/admin/xpubs/search")
  | .AdminGetXPubsCount => ("GET", "/admin/xpubs/count")
  | .AdminRecordTransaction => ("POST", "/admin/transactions/record")

/-- The endpoint paths the interface description lists. -/
def specPaths : List String :=
  ["/xpub", "/admin/status", "/admin/stats",
   "/admin/access-keys/search", "/admin/access-keys/count",
   "/admin/block-headers/search", "/admin/block-headers/count",
   "/admin/destinations/search", "/admin/destinations/count",
   "/admin/paymail/get", "/admin/paymail/create", "/admin/paymail/delete",
   "/admin/paymails/search", "/admin/paymails/count",
   "/admin/transactions/search", "/admin/transactions/count", "/admin/transactions/record",
   "/admin/utxos/search", "/admin/utxos/count",
   "/admin/xpubs/search", "/admin/xpubs/count"]

/-- The operations documented as needing the admin signing key. -/
def isRegistration : OpName → Bool
  | .NewXpub | .RegisterXpub => true
  | _ => false

/-- The zero value of each operation's result type: nil for model and model-list
results, 0 for counts, false for the status. -/
def zeroValue : OpName → RetVal
  | .NewXpub | .RegisterXpub => .unit
  | .AdminGetStatus => .status false
  | .AdminGetStats => .stats none
  | .AdminGetAccessKeys => .models .accessKey none
  | .AdminGetBlockHeaders => .models .blockHeader none
  | .AdminGetDestinations => .models .destination none
  | .AdminGetPaymails => .models .paymailAddress none
  | .AdminGetTransactions => .models .transaction none
  | .AdminGetUtxos => .models .utxo none
  | .AdminGetXPubs => .models .xpub none
  | .AdminGetAccessKeysCount | .AdminGetBlockHeadersCount | .AdminGetDestinationsCount
  | .AdminGetPaymailsCount | .AdminGetTransactionsCount | .AdminGetUtxosCount
  | .AdminGetXPubsCount => .count 0
  | .AdminGetPaymail | .AdminCreatePaymail | .AdminDeletePaymail => .paymail none
  | .AdminRecordTransaction => .transaction none

/-- The documented request body of a search operation. -/
def searchBody (env : Env) (conditions : Option Conditions) (metadata : Option Metadata)
    (queryParams : Option QueryParams) : List (String × Value) :=
  [(env.FieldConditions, .conditions conditions),
   (env.FieldMetadata, .metadata (env.processMetadata metadata)),
   (env.FieldQueryParams, .queryParams queryParams)]

/-- The documented request body of a count operation. -/
def countBody (env : Env) (conditions : Option Conditions) (metadata : Option Metadata) :
    List (String × Value) :=
  [(env.FieldConditions, .conditions conditions),
   (env.FieldMetadata, .metadata (env.processMetadata metadata))]

/-- The documented request body of each invocation: the keys and values of the JSON
object, or `none` where no body is sent. -/
def specBody (env : Env) : Op → Option (List (String × Value))
  | .NewXpub rawXPub metadata | .RegisterXpub rawXPub metadata =>
    some [(env.FieldMetadata, .metadata (env.processMetadata metadata)),
          (env.FieldXpubKey, .str rawXPub)]
  | .AdminGetStatus | .AdminGetStats => none
  | .AdminGetAccessKeys c m q | .AdminGetBlockHeaders c m q | .AdminGetDestinations c m q
  | .AdminGetPaymails c m q | .AdminGetTransactions c m q | .AdminGetUtxos c m q
  | .AdminGetXPubs c m q => some (searchBody env c m q)
  | .AdminGetAccessKeysCount c m | .AdminGetBlockHeadersCount c m
  | .AdminGetDestinationsCount c m | .AdminGetPaymailsCount c m
  | .AdminGetTransactionsCount c m | .AdminGetUtxosCount c m
  | .AdminGetXPubsCount c m => some (countBody env c m)
  | .AdminGetPaymail address | .AdminDeletePaymail address =>
    some [(env.FieldAddress, .str address)]
  | .AdminCreatePaymail xPubID address publicName avatar =>
    some [(env.FieldXpubID, .str xPubID), (env.FieldAddress, .str address),
          (env.FieldPublicName, .str publicName), (env.FieldAvatar, .str avatar)]
  | .AdminRecordTransaction hex => some [(env.FieldHex, .str hex)]

/-- The request an invocation is documented to make, if it makes one: none when the
admin key is required and absent or the body does not marshal. -/
def specCall (env : Env) (h : TransportHTTP) (ctx : Context) (op : Op) : Option Call :=
  if isRegistration op.name = true ∧ h.adminXPriv = none then none
  else
    let key := if isRegistration op.name = true then h.adminXPriv else h.xPriv
    let sign := if op.name = .AdminRecordTransaction then h.signRequest else true
    match specBody env op with
    | none => some ⟨ctx, (specEndpoint op.name).1, (specEndpoint op.name).2, none, key, sign⟩
    | some entries =>
      match env.marshal (mapLit entries) with
      | .error _ => none
      | .ok b =>
        some ⟨ctx, (specEndpoint op.name).1, (specEndpoint op.name).2, some b, key, sign⟩

/-! ## Sample environments, for evaluating the operations on concrete inputs -/

/-- What the sample request helper stores: 42 in a count, true in a status, and nothing
new in any other destination. -/
def sampleStore : (d : DestKind) → d.Ty → d.Ty
  | .int64, _ => (42 : Int)
  | .bool, _ => true
  | .xpub, v => v
  | .adminStats, v => v
  | .models _, v => v
  | .paymailAddress, v => v
  | .transaction, v => v

/-- A sample environment: field names as in the interface description, a marshaller that
renders the keys of the object, a request helper that always succeeds. -/
def sampleEnv : Env where
  FieldMetadata := "metadata"
  FieldXpubKey := "xpub"
  FieldConditions := "conditions"
  FieldQueryParams := "query_params"
  FieldAddress := "address"
  FieldXpubID := "xpub_id"
  FieldPublicName := "public_name"
  FieldAvatar := "avatar"
  FieldHex := "hex"
  ErrAdminKey := ⟨"an admin key must be set"⟩
  processMetadata := fun m => m
  marshal := fun m => .ok (String.join (m.map Prod.fst))
  httpExchange := fun _ _ _ d v => (sampleStore d v, none)

/-- The sample environment with a request helper that fills the destination and then
fails. -/
def failingEnv : Env :=
  { sampleEnv with
    httpExchange := fun _ _ _ d v => (sampleStore d v, some ⟨"connection refused"⟩) }

/-- The sample environment with a marshaller that always fails. -/
def unmarshalableEnv : Env :=
  { sampleEnv with marshal := fun _ => .error ⟨"json: unsupported value"⟩ }

/-- A transport with both keys set. -/
def sampleTransport : TransportHTTP := ⟨some "xprv-admin", some "xprv-user", false, false⟩

/-- A transport without an admin key. -/
def noAdminTransport : TransportHTTP := ⟨none, some "xprv-user", false, true⟩

/-- An invocation of each operation, with empty arguments. -/
def sampleOp : OpName → Op
  | .NewXpub => .NewXpub "" none
  | .RegisterXpub => .RegisterXpub "" none
  | .AdminGetStatus => .AdminGetStatus
  | .AdminGetStats => .AdminGetStats
  | .AdminGetAccessKeys => .AdminGetAccessKeys none none none
  | .AdminGetAccessKeysCount => .AdminGetAccessKeysCount none none
  | .AdminGetBlockHeaders => .AdminGetBlockHeaders none none none
  | .AdminGetBlockHeadersCount => .AdminGetBlockHeadersCount none none
  | .AdminGetDestinations => .AdminGetDestinations none none none
  | .AdminGetDestinationsCount => .AdminGetDestinationsCount none none
  | .AdminGetPaymail => .AdminGetPaymail ""
  | .AdminGetPaymails => .AdminGetPaymails none none none
  | .AdminGetPaymailsCount => .AdminGetPaymailsCount none none
  | .AdminCreatePaymail => .AdminCreatePaymail "" "" "" ""
  | .AdminDeletePaymail => .AdminDeletePaymail ""
  | .AdminGetTransactions => .AdminGetTransactions none none none
  | .AdminGetTransactionsCount => .AdminGetTransactionsCount none none
  | .AdminGetUtxos => .AdminGetUtxos none none none
  | .AdminGetUtxosCount => .AdminGetUtxosCount none none
  | .AdminGetXPubs => .AdminGetXPubs none none none
  | .AdminGetXPubsCount => .AdminGetXPubsCount none none
  | .AdminRecordTransaction => .AdminRecordTransaction ""

/-! ## Auxiliary lemmas -/

/-- Assigning under a key the map does not hold appends the entry. -/
theorem set_fresh (m : GoMap) (k : String) (v : Value) (hk : k ∉ m.map Prod.fst) :
    m.set k v = m ++ [(k, v)] := by
  unfold GoMap.set
  congr 1
  rw [List.filter_eq_self]
  intro e he
  have : e.1 ≠ k := fun hh => hk (hh ▸ List.mem_map_of_mem Prod.fst he)
  simpa using this

/-- Assigning entries with pairwise distinct, fresh keys appends them in order. -/
theorem foldl_set_fresh (entries : List (String × Value)) :
    ∀ acc : GoMap, ((acc ++ entries).map Prod.fst).Nodup →
      entries.foldl (fun m e => m.set e.1 e.2) acc = acc ++ entries := by
  induction entries with
  | nil => intro acc _; simp
  | cons e rest ih =>
    intro acc hnd
    have hfresh : e.1 ∉ acc.map Prod.fst := by
      intro hmem
      simp only [List.map_append, List.map_cons] at hnd
      have := (List.nodup_append.mp hnd).2.2
      exact this hmem (List.mem_cons_self _ _)
    simp only [List.foldl_cons]
    rw [set_fresh acc e.1 e.2 hfresh]
    have : acc ++ [(e.1, e.2)] ++ rest = acc ++ e :: rest := by simp
    rw [ih (acc ++ [(e.1, e.2)]) (by rw [this]; exact hnd), this]

/-- A map literal with pairwise distinct keys holds exactly the listed entries. -/
theorem mapLit_of_nodup (entries : List (String × Value))
    (hnd : (entries.map Prod.fst).Nodup) : mapLit entries = entries := by
  have := foldl_set_fresh entries [] (by simpa using hnd)
  simpa [mapLit] using this

set_option maxHeartbeats 4000000 in
/-- The `doHTTPRequest` calls of an invocation are exactly the documented request. -/
theorem calls_run (env : Env) (h : TransportHTTP) (w : World) (ctx : Context) (op : Op) :
    calls (op.run env h w ctx).2 = (specCall env h ctx op).toList := by
  cases op <;>
    simp only [Op.run, TransportHTTP.NewXpub, TransportHTTP.RegisterXpub,
        TransportHTTP.AdminGetStatus, TransportHTTP.AdminGetStats,
        TransportHTTP.AdminGetAccessKeys, TransportHTTP.AdminGetAccessKeysCount,
        TransportHTTP.AdminGetBlockHeaders, TransportHTTP.AdminGetBlockHeadersCount,
        TransportHTTP.AdminGetDestinations, TransportHTTP.AdminGetDestinationsCount,
        TransportHTTP.AdminGetPaymail, TransportHTTP.AdminGetPaymails,
        TransportHTTP.AdminGetPaymailsCount, TransportHTTP.AdminCreatePaymail,
        TransportHTTP.AdminDeletePaymail, TransportHTTP.AdminGetTransactions,
        TransportHTTP.AdminGetTransactionsCount, TransportHTTP.AdminGetUtxos,
        TransportHTTP.AdminGetUtxosCount, TransportHTTP.AdminGetXPubs,
        TransportHTTP.AdminGetXPubsCount, TransportHTTP.AdminRecordTransaction,
        TransportHTTP.adminGetModels, TransportHTTP.adminCount,
        TransportHTTP.doHTTPRequest, TransportHTTP.debugLog, jsonMarshal, specCall, specBody, searchBody, countBody, Op.name, isRegistration,
      specEndpoint] <;>
    (repeat' split) <;>
    simp_all [calls, MethodGet, MethodPost]

set_option maxHeartbeats 4000000 in
/-- An error returned by an operation that is not a registration was returned by
`json.Marshal` or by `doHTTPRequest` during the invocation. -/
theorem error_origin (env : Env) (h : TransportHTTP) (w : World) (ctx : Context)
    (op : Op) (hreg : isRegistration op.name = false) (e : Error)
    (he : (op.run env h w ctx).1.2 = some e) :
    (∃ v, Event.marshal v (.error e) ∈ (op.run env h w ctx).2) ∨
    (∃ c d, Event.request c d (some e) ∈ (op.run env h w ctx).2) := by
  cases op <;>
    simp only [Op.run, TransportHTTP.NewXpub, TransportHTTP.RegisterXpub,
        TransportHTTP.AdminGetStatus, TransportHTTP.AdminGetStats,
        TransportHTTP.AdminGetAccessKeys, TransportHTTP.AdminGetAccessKeysCount,
        TransportHTTP.AdminGetBlockHeaders, TransportHTTP.AdminGetBlockHeadersCount,
        TransportHTTP.AdminGetDestinations, TransportHTTP.AdminGetDestinationsCount,
        TransportHTTP.AdminGetPaymail, TransportHTTP.AdminGetPaymails,
        TransportHTTP.AdminGetPaymailsCount, TransportHTTP.AdminCreatePaymail,
        TransportHTTP.AdminDeletePaymail, TransportHTTP.AdminGetTransactions,
        TransportHTTP.AdminGetTransactionsCount, TransportHTTP.AdminGetUtxos,
        TransportHTTP.AdminGetUtxosCount, TransportHTTP.AdminGetXPubs,
        TransportHTTP.AdminGetXPubsCount, TransportHTTP.AdminRecordTransaction,
        TransportHTTP.adminGetModels, TransportHTTP.adminCount,
        TransportHTTP.doHTTPRequest, TransportHTTP.debugLog, jsonMarshal] at he ⊢ <;>
    (repeat' split at he) <;>
    simp_all [isRegistration, Op.name]

/-- A recorded request is one of the calls. -/
theorem mem_calls_of_request {evs : List Event} {c : Call} {d : Cell} {err : Option Error}
    (hmem : Event.request c d err ∈ evs) : c ∈ calls evs := by
  unfold calls
  rw [List.mem_filterMap]
  exact ⟨_, hmem, rfl⟩

/-- The context, method, path and key of any call an invocation makes. -/
theorem call_shape (env : Env) (h : TransportHTTP) (w : World) (ctx : Context) (op : Op)
    (c : Call) (hc : c ∈ calls (op.run env h w ctx).2) :
    (c.method, c.path) = specEndpoint op.name ∧
    c.xPriv = (if isRegistration op.name = true then h.adminXPriv else h.xPriv) := by
  rw [calls_run] at hc
  unfold specCall at hc
  by_cases hg : isRegistration op.name = true ∧ h.adminXPriv = none
  · simp [hg.1, hg.2] at hc
  · rw [if_neg hg] at hc
    cases hs : specBody env op with
    | none =>
      simp only [hs, Option.toList_some, List.mem_singleton] at hc
      subst hc
      exact ⟨rfl, rfl⟩
    | some entries =>
      cases hm : env.marshal (mapLit entries) with
      | error e => simp [hs, hm] at hc
      | ok b =>
        simp only [hs, hm, Option.toList_some, List.mem_singleton] at hc
        subst hc
        exact ⟨rfl, rfl⟩

/-- When the admin-key guard passes and the body marshals, an invocation makes exactly
one call, with the documented method, path, key and body. -/
theorem call_made (env : Env) (h : TransportHTTP) (w : World) (ctx : Context) (op : Op)
    (hg : isRegistration op.name = true → h.adminXPriv ≠ none)
    (hb : ∀ entries, specBody env op = some entries →
      ∃ b, env.marshal (mapLit entries) = .ok b) :
    ∃ c, calls (op.run env h w ctx).2 = [c] ∧
      (c.method, c.path) = specEndpoint op.name ∧
      c.xPriv = (if isRegistration op.name = true then h.adminXPriv else h.xPriv) ∧
      (specBody env op = none → c.rawJSON = none) ∧
      (∀ entries b, specBody env op = some entries →
        env.marshal (mapLit entries) = .ok b → c.rawJSON = some b) := by
  rw [calls_run]
  unfold specCall
  have hg2 : ¬(isRegistration op.name = true ∧ h.adminXPriv = none) := fun a => hg a.1 a.2
  rw [if_neg hg2]
  cases hs : specBody env op with
  | none => exact ⟨_, rfl, rfl, rfl, fun _ => rfl, fun _ _ hh => nomatch hh⟩
  | some entries =>
    obtain ⟨b, hm⟩ := hb entries hs
    dsimp only
    rw [hm]
    refine ⟨_, rfl, rfl, rfl, ?_, ?_⟩
    · intro hh
      cases hh
    · intro e2 b2 he2 hm2
      cases he2
      rw [hm] at hm2
      cases hm2
      rfl

set_option maxHeartbeats 4000000 in
/-- When the admin-key guard passes, an invocation with a documented body marshals the
map literal of that body. -/
theorem marshal_made (env : Env) (h : TransportHTTP) (w : World) (ctx : Context) (op : Op)
    (entries : List (String × Value))
    (hg : isRegistration op.name = true → h.adminXPriv ≠ none)
    (hs : specBody env op = some entries) :
    Event.marshal (mapLit entries) (env.marshal (mapLit entries)) ∈
      (op.run env h w ctx).2 := by
  cases op <;>
    simp only [specBody, searchBody, countBody, Option.some.injEq, reduceCtorEq] at hs <;>
    subst hs <;>
    simp only [Op.run, TransportHTTP.NewXpub, TransportHTTP.RegisterXpub,
        TransportHTTP.AdminGetStatus, TransportHTTP.AdminGetStats,
        TransportHTTP.AdminGetAccessKeys, TransportHTTP.AdminGetAccessKeysCount,
        TransportHTTP.AdminGetBlockHeaders, TransportHTTP.AdminGetBlockHeadersCount,
        TransportHTTP.AdminGetDestinations, TransportHTTP.AdminGetDestinationsCount,
        TransportHTTP.AdminGetPaymail, TransportHTTP.AdminGetPaymails,
        TransportHTTP.AdminGetPaymailsCount, TransportHTTP.AdminCreatePaymail,
        TransportHTTP.AdminDeletePaymail, TransportHTTP.AdminGetTransactions,
        TransportHTTP.AdminGetTransactionsCount, TransportHTTP.AdminGetUtxos,
        TransportHTTP.AdminGetUtxosCount, TransportHTTP.AdminGetXPubs,
        TransportHTTP.AdminGetXPubsCount, TransportHTTP.AdminRecordTransaction,
        TransportHTTP.adminGetModels, TransportHTTP.adminCount,
        TransportHTTP.doHTTPRequest, TransportHTTP.debugLog, jsonMarshal] <;>
    (repeat' split) <;>
    simp_all [isRegistration, Op.name]

/-- The sample invocation of a name has that name. -/
theorem sampleOp_name (n : OpName) : (sampleOp n).name = n := by
  cases n <;> rfl


/-! ## C1: the admin-key guard of `NewXpub` -/

/-- C1: if the admin signing key is nil, `NewXpub` returns exactly `ErrAdminKey` and
performs nothing: no `json.Marshal` call and no `doHTTPRequest` call. -/
theorem NewXpub_without_admin_key (env : Env) (h : TransportHTTP) (w : World) (ctx : Context)
    (rawXPub : String) (metadata : Option Metadata) (hk : h.adminXPriv = none) :
    h.NewXpub env w ctx rawXPub metadata = (some env.ErrAdminKey, []) := by
  simp [TransportHTTP.NewXpub, hk]

/-- C1 at a transport without an admin key. -/
theorem NewXpub_without_admin_key_witness :
    noAdminTransport.adminXPriv = none ∧
    noAdminTransport.NewXpub sampleEnv [] 0 "xpub-raw" none =
      (some sampleEnv.ErrAdminKey, []) :=
  ⟨rfl, NewXpub_without_admin_key sampleEnv noAdminTransport [] 0 "xpub-raw" none rfl⟩

/-! ## C2: which operations check the admin key -/

/-- C2 fails as stated: with the admin key nil, `AdminGetStatus` returns no error and
calls `doHTTPRequest` once, with the ordinary key. -/
theorem admin_operations_unguarded :
    noAdminTransport.adminXPriv = none ∧
    (Op.run sampleEnv noAdminTransport [] 0 .AdminGetStatus).1.2 = none ∧
    calls (Op.run sampleEnv noAdminTransport [] 0 .AdminGetStatus).2 =
      [⟨0, "GET", "/admin/status", none, some "xprv-user", true⟩] := by
  refine ⟨rfl, ?_, ?_⟩ <;> decide

/-- C2, amended: with the admin key nil, `NewXpub` and `RegisterXpub` return
`ErrAdminKey` and perform nothing; every other operation still calls `doHTTPRequest`
exactly once whenever its body marshals, hands it the ordinary key `xPriv`, and returns
an error only if `json.Marshal` or `doHTTPRequest` returned that error. -/
theorem admin_key_guard_scope (env : Env) (h : TransportHTTP) (w : World) (ctx : Context)
    (op : Op) (hk : h.adminXPriv = none) :
    (isRegistration op.name = true →
      op.run env h w ctx = ((.unit, some env.ErrAdminKey), [])) ∧
    (isRegistration op.name = false →
      ((∀ entries, specBody env op = some entries →
          ∃ b, env.marshal (mapLit entries) = .ok b) →
        (calls (op.run env h w ctx).2).length = 1) ∧
      (∀ c ∈ calls (op.run env h w ctx).2, c.xPriv = h.xPriv) ∧
      (∀ e, (op.run env h w ctx).1.2 = some e →
        (∃ v, Event.marshal v (.error e) ∈ (op.run env h w ctx).2) ∨
        (∃ c d, Event.request c d (some e) ∈ (op.run env h w ctx).2))) := by
  constructor
  · intro hreg
    cases op <;>
      simp_all [isRegistration, Op.name, Op.run, TransportHTTP.NewXpub,
        TransportHTTP.RegisterXpub]
  · intro hreg
    refine ⟨?_, ?_, fun e he => error_origin env h w ctx op hreg e he⟩
    · intro hb
      rw [calls_run]
      unfold specCall
      simp only [hreg, Bool.false_eq_true, false_and, if_false]
      cases hs : specBody env op with
      | none => simp
      | some entries =>
        obtain ⟨b, hm⟩ := hb entries hs
        simp [hm]
    · intro c hc
      rw [calls_run] at hc
      unfold specCall at hc
      simp only [hreg, Bool.false_eq_true, false_and, if_false] at hc
      split at hc <;> (try split at hc) <;> simp_all

/-- C2, amended, at `AdminGetStatus` on a transport without an admin key: one call. -/
theorem admin_key_guard_scope_witness :
    noAdminTransport.adminXPriv = none ∧
    (calls (Op.run sampleEnv noAdminTransport [] 0 .AdminGetStatus).2).length = 1 :=
  ⟨rfl, ((admin_key_guard_scope sampleEnv noAdminTransport [] 0 .AdminGetStatus rfl).2 rfl).1
    (fun _ hs => nomatch hs)⟩

/-! ## C3: method and path -/

/-- C3: every `doHTTPRequest` call of an operation carries the documented method and
path, which depend on the operation's name only; an operation whose admin-key guard
passes and whose body marshals does make that call; and the paths the operations
request are exactly the listed endpoints. -/
theorem request_endpoint (env : Env) (h : TransportHTTP) (w : World) (ctx : Context) (op : Op) :
    (∀ c d err, Event.request c d err ∈ (op.run env h w ctx).2 →
      (c.method, c.path) = specEndpoint op.name) ∧
    ((isRegistration op.name = true → h.adminXPriv ≠ none) →
      (∀ entries, specBody env op = some entries →
        ∃ b, env.marshal (mapLit entries) = .ok b) →
      ∃ c, calls (op.run env h w ctx).2 = [c] ∧
        (c.method, c.path) = specEndpoint op.name) ∧
    (∀ p, p ∈ specPaths ↔ ∃ n : OpName, (specEndpoint n).2 = p) ∧
    (∀ p, p ∈ specPaths ↔
      ∃ (env2 : Env) (h2 : TransportHTTP) (w2 : World) (ctx2 : Context) (op2 : Op)
        (c : Call), c ∈ calls (op2.run env2 h2 w2 ctx2).2 ∧ c.path = p) := by
  have htab : ∀ p, p ∈ specPaths ↔ ∃ n : OpName, (specEndpoint n).2 = p := by
    intro p
    constructor
    · intro hp
      simp only [specPaths, List.mem_cons, List.mem_singleton, List.not_mem_nil, or_false] at hp
      rcases hp with hp | hp | hp | hp | hp | hp | hp | hp | hp | hp | hp | hp | hp | hp |
        hp | hp | hp | hp | hp | hp | hp <;> subst hp
      · exact ⟨.NewXpub, rfl⟩
      · exact ⟨.AdminGetStatus, rfl⟩
      · exact ⟨.AdminGetStats, rfl⟩
      · exact ⟨.AdminGetAccessKeys, rfl⟩
      · exact ⟨.AdminGetAccessKeysCount, rfl⟩
      · exact ⟨.AdminGetBlockHeaders, rfl⟩
      · exact ⟨.AdminGetBlockHeadersCount, rfl⟩
      · exact ⟨.AdminGetDestinations, rfl⟩
      · exact ⟨.AdminGetDestinationsCount, rfl⟩
      · exact ⟨.AdminGetPaymail, rfl⟩
      · exact ⟨.AdminCreatePaymail, rfl⟩
      · exact ⟨.AdminDeletePaymail, rfl⟩
      · exact ⟨.AdminGetPaymails, rfl⟩
      · exact ⟨.AdminGetPaymailsCount, rfl⟩
      · exact ⟨.AdminGetTransactions, rfl⟩
      · exact ⟨.AdminGetTransactionsCount, rfl⟩
      · exact ⟨.AdminRecordTransaction, rfl⟩
      · exact ⟨.AdminGetUtxos, rfl⟩
      · exact ⟨.AdminGetUtxosCount, rfl⟩
      · exact ⟨.AdminGetXPubs, rfl⟩
      · exact ⟨.AdminGetXPubsCount, rfl⟩
    · rintro ⟨n, rfl⟩
      cases n <;> simp [specPaths, specEndpoint]
  refine ⟨fun c d err hmem => (call_shape env h w ctx op c (mem_calls_of_request hmem)).1,
    ?_, htab, ?_⟩
  · intro hg hb
    obtain ⟨c, hc, hep, _⟩ := call_made env h w ctx op hg hb
    exact ⟨c, hc, hep⟩
  · intro p
    constructor
    · intro hp
      obtain ⟨n, hn⟩ := (htab p).mp hp
      obtain ⟨c, hc, hep, _⟩ := call_made sampleEnv sampleTransport [] 0 (sampleOp n)
        (fun _ => by decide) (fun entries _ => ⟨_, rfl⟩)
      refine ⟨sampleEnv, sampleTransport, [], 0, sampleOp n, c, ?_, ?_⟩
      · rw [hc]
        exact List.mem_singleton.mpr rfl
      · have hpath : c.path = (specEndpoint (sampleOp n).name).2 := congrArg Prod.snd hep
        rw [hpath, sampleOp_name, hn]
    · rintro ⟨env2, h2, w2, ctx2, op2, c, hc, rfl⟩
      have hep := (call_shape env2 h2 w2 ctx2 op2 c hc).1
      have hpath : c.path = (specEndpoint op2.name).2 := congrArg Prod.snd hep
      exact (htab c.path).mpr ⟨op2.name, hpath.symm⟩

/-- C3 at `AdminCreatePaymail` on the sample environment: the operation makes one call,
a POST to `/admin/paymail/create`. -/
theorem request_endpoint_witness :
    ∃ c, calls (Op.run sampleEnv sampleTransport [] 0
        (.AdminCreatePaymail "id" "a@b.c" "A" "")).2 = [c] ∧
      (c.method, c.path) = ("POST", "/admin/paymail/create") :=
  (request_endpoint sampleEnv sampleTransport [] 0
    (.AdminCreatePaymail "id" "a@b.c" "A" "")).2.1 (fun hh => nomatch hh)
    (fun _ _ => ⟨_, rfl⟩)

/-! ## C4: counts -/

/-- C4: `adminCount` hands the helper a destination holding 0 and, when marshalling and
the helper succeed, returns the integer the helper left there, unchanged, with a nil
error; each of the seven count operations is `adminCount` at its own path. -/
theorem adminCount_returns_stored (env : Env) (h : TransportHTTP) (w : World) (ctx : Context)
    (conditions : Option Conditions) (metadata : Option Metadata) (path : String)
    (body : Bytes) (n : Int)
    (hm : env.marshal (mapLit [(env.FieldConditions, .conditions conditions),
      (env.FieldMetadata, .metadata (env.processMetadata metadata))]) = .ok body)
    (hr : env.httpExchange
      (w ++ [Event.marshal (mapLit [(env.FieldConditions, .conditions conditions),
        (env.FieldMetadata, .metadata (env.processMetadata metadata))]) (.ok body)])
      h ⟨ctx, MethodGet, path, some body, h.xPriv, true⟩ .int64 (0 : Int) = (n, none)) :
    (h.adminCount env w ctx conditions metadata path).1 = (n, none) ∧
    h.AdminGetAccessKeysCount env w ctx conditions metadata =
      h.adminCount env w ctx conditions metadata "/admin/access-keys/count" ∧
    h.AdminGetBlockHeadersCount env w ctx conditions metadata =
      h.adminCount env w ctx conditions metadata "/admin/block-headers/count" ∧
    h.AdminGetDestinationsCount env w ctx conditions metadata =
      h.adminCount env w ctx conditions metadata "/admin/destinations/count" ∧
    h.AdminGetPaymailsCount env w ctx conditions metadata =
      h.adminCount env w ctx conditions metadata "/admin/paymails/count" ∧
    h.AdminGetTransactionsCount env w ctx conditions metadata =
      h.adminCount env w ctx conditions metadata "/admin/transactions/count" ∧
    h.AdminGetUtxosCount env w ctx conditions metadata =
      h.adminCount env w ctx conditions metadata "/admin/utxos/count" ∧
    h.AdminGetXPubsCount env w ctx conditions metadata =
      h.adminCount env w ctx conditions metadata "/admin/xpubs/count" := by
  refine ⟨?_, rfl, rfl, rfl, rfl, rfl, rfl, rfl⟩
  simp only [TransportHTTP.adminCount, jsonMarshal, TransportHTTP.doHTTPRequest, hm, hr]

/-- C4 on the sample environment, whose helper stores 42. -/
theorem adminCount_returns_stored_witness :
    (sampleTransport.adminCount sampleEnv [] 0 none none "/admin/utxos/count").1 =
      ((42 : Int), none) :=
  (adminCount_returns_stored sampleEnv sampleTransport [] 0 none none "/admin/utxos/count"
    "conditionsmetadata" 42 rfl rfl).1

/-! ## C5: errors are passed through -/

set_option maxHeartbeats 4000000 in
/-- C5: if `json.Marshal` or `doHTTPRequest` returned the error `e` during an invocation,
the operation returns `e` itself together with the zero value of its result type,
whatever the helper left in the destination. -/
theorem errors_propagated (env : Env) (h : TransportHTTP) (w : World) (ctx : Context)
    (op : Op) (e : Error)
    (he : (∃ v, Event.marshal v (.error e) ∈ (op.run env h w ctx).2) ∨
      (∃ c d, Event.request c d (some e) ∈ (op.run env h w ctx).2)) :
    (op.run env h w ctx).1 = (zeroValue op.name, some e) := by
  cases op <;>
    simp only [Op.run, TransportHTTP.NewXpub, TransportHTTP.RegisterXpub,
        TransportHTTP.AdminGetStatus, TransportHTTP.AdminGetStats,
        TransportHTTP.AdminGetAccessKeys, TransportHTTP.AdminGetAccessKeysCount,
        TransportHTTP.AdminGetBlockHeaders, TransportHTTP.AdminGetBlockHeadersCount,
        TransportHTTP.AdminGetDestinations, TransportHTTP.AdminGetDestinationsCount,
        TransportHTTP.AdminGetPaymail, TransportHTTP.AdminGetPaymails,
        TransportHTTP.AdminGetPaymailsCount, TransportHTTP.AdminCreatePaymail,
        TransportHTTP.AdminDeletePaymail, TransportHTTP.AdminGetTransactions,
        TransportHTTP.AdminGetTransactionsCount, TransportHTTP.AdminGetUtxos,
        TransportHTTP.AdminGetUtxosCount, TransportHTTP.AdminGetXPubs,
        TransportHTTP.AdminGetXPubsCount, TransportHTTP.AdminRecordTransaction,
        TransportHTTP.adminGetModels, TransportHTTP.adminCount,
        TransportHTTP.doHTTPRequest, TransportHTTP.debugLog, jsonMarshal] at he ⊢ <;>
    (repeat' split at he) <;>
    simp_all [zeroValue, Op.name]

/-- C5 with a helper that stores 42 in the count and then fails: the count returned
is 0 and the error is the helper's. -/
theorem errors_propagated_witness :
    Event.request ⟨0, "GET", "/admin/utxos/count", some "conditionsmetadata",
        some "xprv-user", true⟩ ⟨.int64, (42 : Int)⟩ (some ⟨"connection refused"⟩) ∈
      (Op.run failingEnv sampleTransport [] 0 (.AdminGetUtxosCount none none)).2 ∧
    (Op.run failingEnv sampleTransport [] 0 (.AdminGetUtxosCount none none)).1 =
      (.count 0, some ⟨"connection refused"⟩) :=
  ⟨List.Mem.tail _ (List.Mem.head _),
   errors_propagated failingEnv sampleTransport [] 0 (.AdminGetUtxosCount none none)
     ⟨"connection refused"⟩ (Or.inr ⟨_, _, List.Mem.tail _ (List.Mem.head _)⟩)⟩

/-! ## C6: one exchange per invocation -/

/-- C6 fails as stated: with the admin key nil, so that the documented local
precondition does not hold, `AdminGetStats` still calls `doHTTPRequest` once. -/
theorem request_made_without_admin_key :
    noAdminTransport.adminXPriv = none ∧
    (calls (Op.run sampleEnv noAdminTransport [] 0 .AdminGetStats).2).length = 1 := by
  refine ⟨rfl, ?_⟩
  decide

/-- C6, amended: an invocation calls `doHTTPRequest` at most once, and exactly once
precisely when its body, if any, marshals and, for `NewXpub` and `RegisterXpub` only,
the admin key is present; the other operations have no local precondition. -/
theorem at_most_one_request (env : Env) (h : TransportHTTP) (w : World) (ctx : Context)
    (op : Op) :
    (calls (op.run env h w ctx).2).length ≤ 1 ∧
    ((calls (op.run env h w ctx).2).length = 1 ↔
      (isRegistration op.name = true → h.adminXPriv ≠ none) ∧
      (∀ entries, specBody env op = some entries →
        ∃ b, env.marshal (mapLit entries) = .ok b)) := by
  rw [calls_run]
  unfold specCall
  by_cases hg : isRegistration op.name = true ∧ h.adminXPriv = none
  · simp [hg.1, hg.2]
  · rw [if_neg hg]
    have hg2 : isRegistration op.name = true → h.adminXPriv ≠ none := fun a b => hg ⟨a, b⟩
    cases hb : specBody env op with
    | none => simpa using hg2
    | some entries =>
      cases hm : env.marshal (mapLit entries) with
      | error e => simp [hm]
      | ok b => simpa [hm] using hg2

/-- C6 with a failing helper: the failed request is not re-issued. -/
theorem at_most_one_request_witness :
    (calls (Op.run failingEnv sampleTransport [] 0 (.NewXpub "xpub-raw" none)).2).length = 1 ∧
    (calls (Op.run unmarshalableEnv sampleTransport [] 0 (.NewXpub "xpub-raw" none)).2).length
      = 0 :=
  ⟨(at_most_one_request failingEnv sampleTransport [] 0 (.NewXpub "xpub-raw" none)).2.mpr
     ⟨fun _ => by decide, fun _ hs => ⟨"metadataxpub", by cases hs; rfl⟩⟩,
   by decide⟩

/-! ## C7: request bodies -/

set_option maxHeartbeats 4000000 in
/-- C7: the only value an invocation marshals is the map literal of the documented
entries, and the body of any call it makes is the marshalled form of that map, or nil
where no body is documented.  When the admin-key guard passes, an operation without a
documented body does make its call with a nil body, and an operation whose documented
entries have distinct keys and marshal does marshal exactly those entries and does
make its call with the result as body. -/
theorem request_body_fields (env : Env) (h : TransportHTTP) (w : World) (ctx : Context)
    (op : Op) :
    (∀ v res, Event.marshal v res ∈ (op.run env h w ctx).2 →
      ∃ entries, specBody env op = some entries ∧ v = mapLit entries ∧
        res = env.marshal v) ∧
    (∀ c ∈ calls (op.run env h w ctx).2,
      (specBody env op = none → c.rawJSON = none) ∧
      (∀ entries, specBody env op = some entries →
        ∃ b, env.marshal (mapLit entries) = .ok b ∧ c.rawJSON = some b)) ∧
    ((isRegistration op.name = true → h.adminXPriv ≠ none) →
      (specBody env op = none →
        ∃ c, calls (op.run env h w ctx).2 = [c] ∧ c.rawJSON = none) ∧
      (∀ entries b, specBody env op = some entries → (entries.map Prod.fst).Nodup →
        env.marshal entries = .ok b →
        Event.marshal entries (.ok b) ∈ (op.run env h w ctx).2 ∧
        ∃ c, calls (op.run env h w ctx).2 = [c] ∧ c.rawJSON = some b)) := by
  refine ⟨?_, ?_, ?_⟩
  · intro v res hmem
    cases op <;>
      simp only [Op.run, TransportHTTP.NewXpub, TransportHTTP.RegisterXpub,
        TransportHTTP.AdminGetStatus, TransportHTTP.AdminGetStats,
        TransportHTTP.AdminGetAccessKeys, TransportHTTP.AdminGetAccessKeysCount,
        TransportHTTP.AdminGetBlockHeaders, TransportHTTP.AdminGetBlockHeadersCount,
        TransportHTTP.AdminGetDestinations, TransportHTTP.AdminGetDestinationsCount,
        TransportHTTP.AdminGetPaymail, TransportHTTP.AdminGetPaymails,
        TransportHTTP.AdminGetPaymailsCount, TransportHTTP.AdminCreatePaymail,
        TransportHTTP.AdminDeletePaymail, TransportHTTP.AdminGetTransactions,
        TransportHTTP.AdminGetTransactionsCount, TransportHTTP.AdminGetUtxos,
        TransportHTTP.AdminGetUtxosCount, TransportHTTP.AdminGetXPubs,
        TransportHTTP.AdminGetXPubsCount, TransportHTTP.AdminRecordTransaction,
        TransportHTTP.adminGetModels, TransportHTTP.adminCount,
        TransportHTTP.doHTTPRequest, TransportHTTP.debugLog, jsonMarshal] at hmem <;>
      (repeat' split at hmem) <;>
      simp_all [specBody, searchBody, countBody]
  · intro c hc
    rw [calls_run] at hc
    unfold specCall at hc
    split at hc
    · simp at hc
    · cases hs : specBody env op with
      | none =>
        rw [hs] at hc
        simp only [Option.toList_some, List.mem_singleton] at hc
        subst hc
        simp
      | some entries =>
        rw [hs] at hc
        cases hm : env.marshal (mapLit entries) with
        | error e => simp [hm] at hc
        | ok b =>
          simp only [hm, Option.toList_some, List.mem_singleton] at hc
          subst hc
          simp [hm]
  · intro hg
    constructor
    · intro hs
      obtain ⟨c, hc, _, _, hnone, _⟩ := call_made env h w ctx op hg
        (fun entries he => by rw [hs] at he; cases he)
      exact ⟨c, hc, hnone hs⟩
    · intro entries b hs hnd hm
      have hlit : mapLit entries = entries := mapLit_of_nodup entries hnd
      have hm2 : env.marshal (mapLit entries) = .ok b := by rw [hlit]; exact hm
      constructor
      · have hmem := marshal_made env h w ctx op entries hg hs
        rw [hm2, hlit] at hmem
        exact hmem
      · obtain ⟨c, hc, _, _, _, hsome⟩ := call_made env h w ctx op hg
          (fun e2 he => by
            rw [hs] at he
            cases he
            exact ⟨b, hm2⟩)
        exact ⟨c, hc, hsome entries b hs hm2⟩

/-- C7 at `AdminCreatePaymail` on the sample environment: the operation marshals
exactly the four documented entries and hands the result to the helper as body. -/
theorem request_body_fields_witness :
    Event.marshal [("xpub_id", .str "id"), ("address", .str "a@b.c"),
        ("public_name", .str "A"), ("avatar", .str "")]
        (.ok "xpub_idaddresspublic_nameavatar") ∈
      (Op.run sampleEnv sampleTransport [] 0 (.AdminCreatePaymail "id" "a@b.c" "A" "")).2 ∧
    ∃ c, calls (Op.run sampleEnv sampleTransport [] 0
        (.AdminCreatePaymail "id" "a@b.c" "A" "")).2 = [c] ∧
      c.rawJSON = some "xpub_idaddresspublic_nameavatar" :=
  ((request_body_fields sampleEnv sampleTransport [] 0
    (.AdminCreatePaymail "id" "a@b.c" "A" "")).2.2 (fun hh => nomatch hh)).2
    [("xpub_id", .str "id"), ("address", .str "a@b.c"), ("public_name", .str "A"),
      ("avatar", .str "")]
    "xpub_idaddresspublic_nameavatar" rfl (by decide) rfl

/-! ## C8: `RegisterXpub` -/

/-- C8: `RegisterXpub` returns the same error and performs the same events (hence the
same `doHTTPRequest` call) as `NewXpub`; with the admin key nil it returns `ErrAdminKey`
and performs nothing. -/
theorem RegisterXpub_eq_NewXpub (env : Env) (h : TransportHTTP) (w : World) (ctx : Context)
    (rawXPub : String) (metadata : Option Metadata) :
    h.RegisterXpub env w ctx rawXPub metadata = h.NewXpub env w ctx rawXPub metadata ∧
    (h.adminXPriv = none →
      h.RegisterXpub env w ctx rawXPub metadata = (some env.ErrAdminKey, [])) := by
  refine ⟨rfl, fun hk => ?_⟩
  simp [TransportHTTP.RegisterXpub, TransportHTTP.NewXpub, hk]

/-- C8 at a transport without an admin key. -/
theorem RegisterXpub_eq_NewXpub_witness :
    noAdminTransport.RegisterXpub sampleEnv [] 0 "xpub-raw" none =
      (some sampleEnv.ErrAdminKey, []) :=
  (RegisterXpub_eq_NewXpub sampleEnv noAdminTransport [] 0 "xpub-raw" none).2 rfl

/-! ## C9: the signing key -/

/-- C9: a `doHTTPRequest` call made by `NewXpub` or `RegisterXpub` carries `adminXPriv`
and a call made by any other operation carries `xPriv`; and an operation whose
admin-key guard passes and whose body marshals does make one call, carrying that
key. -/
theorem signing_key_selection (env : Env) (h : TransportHTTP) (w : World) (ctx : Context)
    (op : Op) :
    (∀ c d err, Event.request c d err ∈ (op.run env h w ctx).2 →
      c.xPriv = if isRegistration op.name = true then h.adminXPriv else h.xPriv) ∧
    ((isRegistration op.name = true → h.adminXPriv ≠ none) →
      (∀ entries, specBody env op = some entries →
        ∃ b, env.marshal (mapLit entries) = .ok b) →
      ∃ c, calls (op.run env h w ctx).2 = [c] ∧
        c.xPriv = if isRegistration op.name = true then h.adminXPriv else h.xPriv) := by
  refine ⟨fun c d err hmem => (call_shape env h w ctx op c (mem_calls_of_request hmem)).2,
    ?_⟩
  intro hg hb
  obtain ⟨c, hc, _, hkey, _⟩ := call_made env h w ctx op hg hb
  exact ⟨c, hc, hkey⟩

/-- C9 on a transport whose two keys differ: `NewXpub` hands the helper the admin key,
`AdminRecordTransaction` the ordinary key. -/
theorem signing_key_selection_witness :
    (∃ c, calls (Op.run sampleEnv sampleTransport [] 0 (.NewXpub "xpub-raw" none)).2 = [c] ∧
      c.xPriv = some "xprv-admin") ∧
    (∃ c, calls (Op.run sampleEnv sampleTransport [] 0 (.AdminRecordTransaction "0100")).2
        = [c] ∧
      c.xPriv = some "xprv-user") :=
  ⟨(signing_key_selection sampleEnv sampleTransport [] 0 (.NewXpub "xpub-raw" none)).2
      (fun _ => by decide) (fun _ _ => ⟨_, rfl⟩),
   (signing_key_selection sampleEnv sampleTransport [] 0 (.AdminRecordTransaction "0100")).2
      (fun hh => nomatch hh) (fun _ _ => ⟨_, rfl⟩)⟩

/-! ## C10: the sign flag -/

/-- C10: for every operation but `AdminRecordTransaction` the calls made do not depend
on `signRequest` and carry the sign flag true; `AdminRecordTransaction` passes
`signRequest` as the sign flag; so a call with the sign flag false comes from
`AdminRecordTransaction` on a transport with `signRequest` false. -/
theorem sign_flag (env : Env) (h : TransportHTTP) (w : World) (ctx : Context)
    (op : Op) (b : Bool) :
    (op.name ≠ .AdminRecordTransaction →
      calls (op.run env { h with signRequest := b } w ctx).2 = calls (op.run env h w ctx).2 ∧
      ∀ c ∈ calls (op.run env h w ctx).2, c.sign = true) ∧
    (op.name = .AdminRecordTransaction →
      ∀ c ∈ calls (op.run env h w ctx).2, c.sign = h.signRequest) ∧
    (∀ c ∈ calls (op.run env h w ctx).2, c.sign = false →
      op.name = .AdminRecordTransaction ∧ h.signRequest = false) := by
  rw [calls_run, calls_run]
  unfold specCall
  by_cases hr : op.name = .AdminRecordTransaction
  · simp only [hr, if_true, ne_eq, not_true_eq_false, false_implies, true_and, true_implies]
    constructor
    · intro c hc
      split at hc <;> (try split at hc) <;> (try split at hc) <;> simp_all
    · intro c hc hs
      split at hc <;> (try split at hc) <;> (try split at hc) <;> simp_all
  · simp only [hr, if_false, ne_eq, not_false_eq_true, true_implies, false_implies, true_and]
    refine ⟨?_, ?_⟩
    · intro c hc
      split at hc <;> (try split at hc) <;> (try split at hc) <;> simp_all
    · intro c hc hs
      split at hc <;> (try split at hc) <;> (try split at hc) <;> simp_all

/-- C10 at `AdminRecordTransaction` on a transport with `signRequest` false: the call
asks for an unsigned request. -/
theorem sign_flag_witness :
    (⟨0, "POST", "/admin/transactions/record", some "hex", some "xprv-user", false⟩ : Call) ∈
      calls (Op.run sampleEnv sampleTransport [] 0 (.AdminRecordTransaction "0100")).2 ∧
    false = sampleTransport.signRequest :=
  ⟨by decide,
   (sign_flag sampleEnv sampleTransport [] 0 (.AdminRecordTransaction "0100") true).2.1 rfl
     ⟨0, "POST", "/admin/transactions/record", some "hex", some "xprv-user", false⟩
     (by decide)⟩

end Transports
